import Mathlib

/-!
Verification development for the fmn.web application core (src/fmn/web/app.py).

The repository is the web layer of the FMN notification system: `app.py`
drives the Preference / Filter / Rule / Confirmation model (owned by the
external `fmn.lib` package) through HTTP handlers.  We give a shallow
embedding of the four mutating handlers (`handle_confirmation`,
`handle_filter`, `handle_details`, `handle_rule`), the `api_method`
wrapper and the `int_or_none` helper, together with the model operations
they invoke.  Operations of `fmn.lib` and of `fmn.web.forms` are not part
of the visible sources; each such definition carries a doc comment
starting with "Modelled from the spec:" and follows the specification's
description of the Preference Store and Confirmation Engine.

The database is a value: handlers take a `DB` and return the result paired
with the successor `DB`, mirroring the commit-as-you-go session use of the
Python code (a failure after an earlier commit keeps the earlier change).
-/

namespace FmnWeb

/-- One attached matching criterion: a code path plus its bound arguments
(`fmn.lib` Rule row). -/
structure Rule where
  code_path : String
  arguments : List (String × String)
deriving DecidableEq, Repr

/-- A named rule chain inside a Preference (`fmn.lib` Filter row); rule
order is insertion order. -/
structure Filter where
  name : String
  rules : List Rule
deriving DecidableEq, Repr

/-- One user's settings for one context (`fmn.lib` Preference row). -/
structure Preference where
  openid : String
  context : String
  detail_value : Option String
  enabled : Bool
  batch_delta : Option Int
  batch_count : Option Int
  filters : List Filter
deriving DecidableEq, Repr

/-- A pending or resolved delivery-detail verification (`fmn.lib`
Confirmation row); `detail_value` is the proposed value, `status` is one of
"pending", "accepted", "rejected", "invalid". -/
structure Confirmation where
  openid : String
  context_name : String
  secret : String
  detail_value : String
  status : String
deriving DecidableEq, Repr

/-- The persisted state reachable from the handlers: users and contexts are
read-only reference data (only membership is consulted), preferences and
confirmations are mutated. -/
structure DB where
  users : List String
  contexts : List String
  prefs : List Preference
  confirmations : List Confirmation
deriving DecidableEq, Repr

/-- Process-wide configuration and the external collaborators consulted by
the handlers: `FMN_ADMINS`, the `fmn.verify_delivery_details` fedmsg
setting (default True), `fmn.lib.validate_detail_value`, and the rule
catalog used by `add_rule` (`valid_paths` plus argument validation). -/
structure Env where
  admins : List String
  verify_delivery_details : Bool
  validate_detail : String → String → Bool
  valid_code_path : String → Bool
  validate_args : String → List (String × String) → Bool

/-- The `admin` helper of app.py: membership in the `FMN_ADMINS` setting. -/
def Env.isAdmin (env : Env) (u : String) : Bool :=
  env.admins.contains u

/-- Python truthiness of an optional form-field string: `None` and the
empty string are falsy. -/
def truthy : Option String → Bool
  | none => false
  | some s => s ≠ ""

/-- Digit-string reading used by `pyInt`. -/
def parseDigits (cs : List Char) : Option Nat :=
  if cs ≠ [] ∧ cs.all Char.isDigit then
    some (cs.foldl (fun a c => a * 10 + (c.toNat - 48)) 0)
  else
    none

/-- Strip whitespace from both ends of a character list. -/
def stripWs (cs : List Char) : List Char :=
  ((cs.dropWhile Char.isWhitespace).reverse.dropWhile Char.isWhitespace).reverse

/-- Python's `int(s)` on a string: surrounding whitespace, an optional
sign, then a non-empty run of digits; anything else raises `ValueError`
(modelled as `none`). -/
def pyInt (s : String) : Option Int :=
  match stripWs s.toList with
  | '-' :: rest => (parseDigits rest).map (fun n => -(n : Int))
  | '+' :: rest => (parseDigits rest).map (fun n => (n : Int))
  | cs => (parseDigits cs).map (fun n => (n : Int))

/-- Result of a Python code path: a value, a raised-and-caught `APIError`
(status code plus error payload), or an uncaught exception that propagates
to the WSGI layer. -/
inductive PyResult (α : Type) where
  | ok (a : α)
  | apiError (status : Nat) (reason : String)
  | exc (name : String)
deriving DecidableEq, Repr

/-- The `int_or_none` helper of app.py.  `"<disabled>"` maps to `None`;
otherwise the value is passed to `int`.  `int(None)` raises `TypeError`,
which the helper catches and converts to `APIError(400, ...)`; `int` on a
non-numeric string raises `ValueError`, which the `except TypeError`
clause does NOT catch, so it escapes as a raw exception. -/
def int_or_none (value : Option String) : PyResult (Option Int) :=
  if value = some "<disabled>" then
    .ok none
  else
    match value with
    | none => .apiError 400 "batch_delta: Not a valid integer value"
    | some s =>
      match pyInt s with
      | some n => .ok (some n)
      | none => .exc "ValueError"

/-- The HTTP response produced by the `api_method` wrapper: a typed JSON
response, a redirect, or an unhandled exception escaping to the server. -/
inductive Response where
  | json (status : Nat) (body : String)
  | redirect (url : String)
  | unhandled (exc : String)
deriving DecidableEq, Repr

/-- The `api_method` decorator of app.py: catches `APIError` and renders
it as a JSON response with that status; renders success as a redirect for
browsers or a 200 JSON body; anything else (an exception that is not an
`APIError`) propagates unhandled. -/
def api_method (wantsHtml : Bool) (r : PyResult String × DB) : Response × DB :=
  match r with
  | (.ok url, db) => (if wantsHtml then .redirect url else .json 200 "ok", db)
  | (.apiError status reason, db) => (.json status reason, db)
  | (.exc e, db) => (.unhandled e, db)

/-- `flask.url_for` for the `context` page. -/
def url_for_context (openid ctx : String) : String :=
  "/" ++ openid ++ "/" ++ ctx

/-- `flask.url_for` for the `filter` page. -/
def url_for_filter (openid ctx fname : String) : String :=
  "/" ++ openid ++ "/" ++ ctx ++ "/" ++ fname

/-- Key lookup for the Preference of a (user, context) pair. -/
def DB.findPref (db : DB) (o c : String) : Option Preference :=
  db.prefs.find? (fun p => p.openid == o && p.context == c)

/-- Replace the Preference of a (user, context) pair by applying `f`. -/
def DB.updPref (db : DB) (o c : String) (f : Preference → Preference) : DB :=
  { db with
    prefs := db.prefs.map (fun p =>
      if p.openid == o && p.context == c then f p else p) }

/-- Modelled from the spec: `fmn.lib.models.Preference.get_or_create` —
idempotent; returns the existing row for the pair or creates a fresh one
(no detail value, delivery enabled, no batch values, no filters). -/
def DB.getOrCreatePref (db : DB) (o c : String) : Preference × DB :=
  match db.findPref o c with
  | some p => (p, db)
  | none =>
    let p : Preference :=
      { openid := o, context := c, detail_value := none, enabled := true,
        batch_delta := none, batch_count := none, filters := [] }
    (p, { db with prefs := db.prefs ++ [p] })

/-- Modelled from the spec: `Preference.has_filter` — whether a Filter
with this name exists in the Preference. -/
def Preference.has_filter (p : Preference) (n : String) : Bool :=
  p.filters.any (fun f => f.name == n)

/-- Modelled from the spec: `Preference.get_filter` — the Filter with this
name, if any (the library raises when it is absent; callers in app.py
guard with `has_filter` or catch the exception). -/
def Preference.get_filter (p : Preference) (n : String) : Option Filter :=
  p.filters.find? (fun f => f.name == n)

/-- Modelled from the spec: `Filter.create` followed by
`Preference.add_filter` — append a fresh, empty Filter of this name. -/
def DB.addFilterTo (db : DB) (o c fname : String) : DB :=
  db.updPref o c (fun p =>
    { p with filters := p.filters ++ [{ name := fname, rules := [] }] })

/-- Modelled from the spec: `SESSION.delete(filter)` — remove the Filter
row of this name (the first match) and, by ownership cascade, its Rules. -/
def DB.deleteFilterFrom (db : DB) (o c fname : String) : DB :=
  db.updPref o c (fun p =>
    { p with filters := p.filters.eraseP (fun f => f.name == fname) })

/-- Modelled from the spec: `Filter.add_rule` appends the new Rule,
preserving insertion order. -/
def DB.addRuleTo (db : DB) (o c fname : String) (r : Rule) : DB :=
  db.updPref o c (fun p =>
    { p with filters := p.filters.map (fun f =>
        if f.name == fname then { f with rules := f.rules ++ [r] } else f) })

/-- Modelled from the spec: `Filter.remove_filter` detaches the Rule with
this code path from the Filter. -/
def DB.removeRuleFrom (db : DB) (o c fname code_path : String) : DB :=
  db.updPref o c (fun p =>
    { p with filters := p.filters.map (fun f =>
        if f.name == fname then
          { f with rules := f.rules.eraseP (fun r => r.code_path == code_path) }
        else f) })

/-- The confirmations of one (user, context) pair. -/
def DB.confsFor (db : DB) (o c : String) : List Confirmation :=
  db.confirmations.filter (fun k => k.openid == o && k.context_name == c)

/-- Modelled from the spec: `Confirmation.by_secret` — plain key lookup of
a Confirmation by its secret token (§6: "Confirmations keyed by secret"),
with no condition on its status. -/
def DB.bySecret (db : DB) (secret : String) : Option Confirmation :=
  db.confirmations.find? (fun k => k.secret == secret)

/-- Update the Confirmation row holding this secret. -/
def DB.updConfBySecret (db : DB) (secret : String)
    (f : Confirmation → Confirmation) : DB :=
  { db with
    confirmations := db.confirmations.map (fun k =>
      if k.secret == secret then f k else k) }

/-- Modelled from the spec: `Confirmation.get_or_create` — return the
existing Confirmation of the (user, context) pair, keeping its token
(§4.2: "overwrite in place, keep the existing token"), or create a fresh
`pending` one carrying the supplied fresh secret. -/
def DB.getOrCreateConf (db : DB) (o c freshSecret : String) :
    Confirmation × DB :=
  match (db.confsFor o c).head? with
  | some k => (k, db)
  | none =>
    let k : Confirmation :=
      { openid := o, context_name := c, secret := freshSecret,
        detail_value := "", status := "pending" }
    (k, { db with confirmations := db.confirmations ++ [k] })

/-- Modelled from the spec: `Confirmation.set_value` — overwrite the
proposed detail value in place. -/
def DB.confSetValue (db : DB) (k : Confirmation) (v : String) : DB :=
  db.updConfBySecret k.secret (fun c => { c with detail_value := v })

/-- Modelled from the spec: `Confirmation.set_status` — set the status
field; per §4.2, accepting additionally commits the proposed value into
the owning Preference's `detail_value` as one atomic step. -/
def DB.confSetStatus (db : DB) (k : Confirmation) (status : String) : DB :=
  let db1 := db.updConfBySecret k.secret (fun c => { c with status := status })
  if status = "accepted" then
    db1.updPref k.openid k.context_name
      (fun p => { p with detail_value := some k.detail_value })
  else
    db1

/-- Modelled from the spec: `Preference.update_details` — directly
overwrite `detail_value` (the non-confirmation path of §4.1
`updateDetail`). -/
def DB.updateDetails (db : DB) (o c v : String) : DB :=
  db.updPref o c (fun p => { p with detail_value := some v })

/-- Modelled from the spec: `Preference.set_batch_values` — overwrite both
batch knobs with the supplied values (`none` stores null). -/
def DB.setBatchValues (db : DB) (o c : String) (delta count : Option Int) :
    DB :=
  db.updPref o c (fun p => { p with batch_delta := delta, batch_count := count })

/-- Modelled from the spec: `Preference.set_enabled` — store the supplied
delivery-enabled flag. -/
def DB.setEnabled (db : DB) (o c : String) (b : Bool) : DB :=
  db.updPref o c (fun p => { p with enabled := b })

/-- The outcome of the `handle_confirmation` view, which answers with
`flask.abort` or a redirect rather than through `api_method`. -/
inductive ConfOutcome where
  | redirect (openid ctx : String)
  | abort (status : Nat)
deriving DecidableEq, Repr

/-- The `handle_confirmation` view of app.py: reject unknown actions with
404, look the Confirmation up by secret (404 when absent), require the
logged-in caller to be the confirmation's user (403), then set the status
to "accepted" or "rejected" and redirect to the context page. -/
def handle_confirmation (db : DB) (caller action secret : String) :
    ConfOutcome × DB :=
  if action ≠ "accept" ∧ action ≠ "reject" then
    (.abort 404, db)
  else
    match db.bySecret secret with
    | none => (.abort 404, db)
    | some k =>
      if caller ≠ k.openid then
        (.abort 403, db)
      else
        let status := if action = "accept" then "accepted" else "rejected"
        (.redirect k.openid k.context_name, db.confSetStatus k status)

/-- The parsed fields of the filter form.  Modelled from the spec: the
`fmn.web.forms.FilterForm` module is transport glue outside the visible
sources; a missing optional text field carries `none`. -/
structure FilterForm where
  openid : String
  context : String
  filter_name : String
  method : Option String
deriving DecidableEq, Repr

/-- Modelled from the spec: required-field validation of the transport
forms — the named identification fields must be present and non-empty. -/
def FilterForm.valid (f : FilterForm) : Prop :=
  f.openid ≠ "" ∧ f.context ≠ "" ∧ f.filter_name ≠ ""

instance (f : FilterForm) : Decidable f.valid := by
  unfold FilterForm.valid; infer_instance

/-- ASCII upcasing of one character, as Python's `str.upper` does on the
method names involved here. -/
def upChar (c : Char) : Char :=
  if 97 ≤ c.toNat ∧ c.toNat ≤ 122 then Char.ofNat (c.toNat - 32) else c

/-- ASCII upcasing of a string. -/
def pyUpper (s : String) : String :=
  String.mk (s.toList.map upChar)

/-- The `(form.method.data or flask.request.method).upper()` computation:
a missing or empty form field falls back to the request method. -/
def resolveMethod (formMethod : Option String) (reqMethod : String) : String :=
  pyUpper (match formMethod with
           | some m => if m = "" then reqMethod else m
           | none => reqMethod)

/-- The `handle_filter` view of app.py: validate the form, resolve the
method, enforce the caller/target authorization rule, check user and
context, get-or-create the Preference, then either create a Filter
(rejecting a duplicate name) or delete the named Filter. -/
def handle_filter (env : Env) (db : DB) (caller reqMethod : String)
    (form : FilterForm) : PyResult String × DB :=
  if ¬ form.valid then
    (.apiError 400 "This field is required.", db)
  else
    let method := resolveMethod form.method reqMethod
    if caller ≠ form.openid ∧ ¬ env.isAdmin caller then
      (.apiError 403 (caller ++ " is not " ++ form.openid), db)
    else if method ≠ "POST" ∧ method ≠ "DELETE" then
      (.apiError 405 "Only POST and DELETE accepted", db)
    else if form.openid ∉ db.users then
      (.apiError 403 (form.openid ++ " is not a user"), db)
    else if form.context ∉ db.contexts then
      (.apiError 403 (form.context ++ " is not a context"), db)
    else
      let pd := db.getOrCreatePref form.openid form.context
      if method = "POST" then
        if pd.1.has_filter form.filter_name then
          (.apiError 404 (form.filter_name ++ " already exists"), pd.2)
        else
          (.ok (url_for_filter form.openid form.context form.filter_name),
           pd.2.addFilterTo form.openid form.context form.filter_name)
      else
        match pd.1.get_filter form.filter_name with
        | none => (.apiError 403 ("no such filter " ++ form.filter_name), pd.2)
        | some _ =>
          (.ok (url_for_context form.openid form.context),
           pd.2.deleteFilterFrom form.openid form.context form.filter_name)

/-- The parsed fields of the details form.  Modelled from the spec: the
`fmn.web.forms.DetailsForm` module is transport glue outside the visible
sources; the optional text fields carry `none` when missing, and
`toggle_enable` carries its truthiness. -/
structure DetailsForm where
  openid : String
  context : String
  detail_value : Option String
  batch_delta : Option String
  batch_count : Option String
  toggle_enable : Bool
deriving DecidableEq, Repr

/-- Modelled from the spec: required-field validation of the transport
forms — the named identification fields must be present and non-empty. -/
def DetailsForm.valid (f : DetailsForm) : Prop :=
  f.openid ≠ "" ∧ f.context ≠ ""

instance (f : DetailsForm) : Decidable f.valid := by
  unfold DetailsForm.valid; infer_instance

/-- The delivery-detail branch of `handle_details` (app.py lines 461-479):
when a non-empty value differing from the stored one is supplied, validate
it against the context's detail validator (failure raises
`APIError(403, ...)`), then, under the `fmn.verify_delivery_details`
policy, get-or-create the pair's Confirmation, store the proposed value in
it and set it `pending`; only with verification disabled is the
Preference's `detail_value` written directly. -/
def detailStep (env : Env) (db : DB) (pref : Preference)
    (o c : String) (dv : Option String) (freshSecret : String) :
    PyResult Unit × DB :=
  match dv with
  | none => (.ok (), db)
  | some v =>
    if v ≠ "" ∧ some v ≠ pref.detail_value then
      if env.validate_detail c v then
        if env.verify_delivery_details then
          let kd := db.getOrCreateConf o c freshSecret
          let db2 := kd.2.confSetValue kd.1 v
          let db3 := db2.confSetStatus { kd.1 with detail_value := v } "pending"
          (.ok (), db3)
        else
          (.ok (), db.updateDetails o c v)
      else
        (.apiError 403 ("invalid detail value " ++ v), db)
    else
      (.ok (), db)

/-- The batch branch of `handle_details` (app.py lines 481-485): when
either batch field is truthy both are passed through `int_or_none` and
the results are stored with `set_batch_values`. -/
def batchStep (db : DB) (o c : String) (bd bc : Option String) :
    PyResult Unit × DB :=
  if truthy bd || truthy bc then
    match int_or_none bd with
    | .apiError s r => (.apiError s r, db)
    | .exc e => (.exc e, db)
    | .ok delta =>
      match int_or_none bc with
      | .apiError s r => (.apiError s r, db)
      | .exc e => (.exc e, db)
      | .ok count => (.ok (), db.setBatchValues o c delta count)
  else
    (.ok (), db)

/-- The batch branch followed by the enable toggle of `handle_details`
(app.py lines 481-489): a failure in the batch branch returns before the
toggle runs; the toggle stores the negation of the current flag through
`set_enabled`. -/
def batchToggleStep (db : DB) (o c : String) (bd bc : Option String)
    (t : Bool) : PyResult Unit × DB :=
  match batchStep db o c bd bc with
  | (.apiError s r, db3) => (.apiError s r, db3)
  | (.exc e, db3) => (.exc e, db3)
  | (.ok _, db3) =>
    (.ok (),
     if t then db3.updPref o c (fun p => { p with enabled := !p.enabled })
     else db3)

/-- The `handle_details` view of app.py: validate the form, enforce the
caller/target authorization rule, check user and context, get-or-create
the Preference, then run the detail branch, the batch branch and the
enable toggle in order; an `APIError` raised by a later branch returns
with the earlier branches' changes already committed. -/
def handle_details (env : Env) (db : DB) (caller freshSecret : String)
    (form : DetailsForm) : PyResult String × DB :=
  if ¬ form.valid then
    (.apiError 400 "This field is required.", db)
  else if caller ≠ form.openid ∧ ¬ env.isAdmin caller then
    (.apiError 403 (caller ++ " is not " ++ form.openid), db)
  else if form.openid ∉ db.users then
    (.apiError 403 (form.openid ++ " is not a user"), db)
  else if form.context ∉ db.contexts then
    (.apiError 403 (form.context ++ " is not a context"), db)
  else
    let pd := db.getOrCreatePref form.openid form.context
    match detailStep env pd.2 pd.1 form.openid form.context
        form.detail_value freshSecret with
    | (.apiError s r, db2) => (.apiError s r, db2)
    | (.exc e, db2) => (.exc e, db2)
    | (.ok _, db2) =>
      match batchToggleStep db2 form.openid form.context
          form.batch_delta form.batch_count form.toggle_enable with
      | (.apiError s r, db4) => (.apiError s r, db4)
      | (.exc e, db4) => (.exc e, db4)
      | (.ok _, db4) =>
        (.ok (url_for_context form.openid form.context), db4)

/-- The parsed fields of the rule form.  Modelled from the spec: the
`fmn.web.forms.RuleForm` module is transport glue outside the visible
sources; `arguments` holds the extra form entries not among the known
argument names. -/
structure RuleForm where
  openid : String
  context : String
  filter_name : String
  rule_name : String
  method : Option String
  arguments : List (String × String)
deriving DecidableEq, Repr

/-- Modelled from the spec: required-field validation of the transport
forms — the named identification fields must be present and non-empty. -/
def RuleForm.valid (f : RuleForm) : Prop :=
  f.openid ≠ "" ∧ f.context ≠ "" ∧ f.filter_name ≠ "" ∧ f.rule_name ≠ ""

instance (f : RuleForm) : Decidable f.valid := by
  unfold RuleForm.valid; infer_instance

/-- The `handle_rule` view of app.py: validate the form, resolve the
method, enforce the caller/target authorization rule, check user, context
and filter, then attach (validating the code path and arguments against
the rule catalog; a library `ValueError`/`KeyError` is converted to
`APIError(403, ...)`) or detach the rule. -/
def handle_rule (env : Env) (db : DB) (caller reqMethod : String)
    (form : RuleForm) : PyResult String × DB :=
  if ¬ form.valid then
    (.apiError 400 "This field is required.", db)
  else
    let method := resolveMethod form.method reqMethod
    if caller ≠ form.openid ∧ ¬ env.isAdmin caller then
      (.apiError 403 (caller ++ " is not " ++ form.openid), db)
    else if method ≠ "POST" ∧ method ≠ "DELETE" then
      (.apiError 405 "Only POST and DELETE accepted", db)
    else if form.openid ∉ db.users then
      (.apiError 403 (form.openid ++ " is not a user"), db)
    else if form.context ∉ db.contexts then
      (.apiError 403 (form.context ++ " is not a context"), db)
    else
      let pd := db.getOrCreatePref form.openid form.context
      if ¬ pd.1.has_filter form.filter_name then
        (.apiError 403 (form.filter_name ++ " is not a filter"), pd.2)
      else if method = "POST" then
        if env.valid_code_path form.rule_name ∧
            env.validate_args form.rule_name form.arguments then
          (.ok (url_for_filter form.openid form.context form.filter_name),
           pd.2.addRuleTo form.openid form.context form.filter_name
             { code_path := form.rule_name, arguments := form.arguments })
        else
          (.apiError 403 ("invalid rule " ++ form.rule_name), pd.2)
      else
        if (pd.1.get_filter form.filter_name).elim false
            (fun f => f.rules.any (fun r => r.code_path == form.rule_name)) then
          (.ok (url_for_filter form.openid form.context form.filter_name),
           pd.2.removeRuleFrom form.openid form.context form.filter_name
             form.rule_name)
        else
          (.apiError 403 ("no such rule " ++ form.rule_name), pd.2)

/-! ### Concrete test fixtures -/

/-- A permissive environment: no administrators, verification policy in
force, every detail value and rule accepted by the external validators. -/
def testEnv : Env :=
  { admins := [], verify_delivery_details := true,
    validate_detail := fun _ _ => true,
    valid_code_path := fun _ => true,
    validate_args := fun _ _ => true }

/-- Alice's email Preference with one empty filter and no batch values. -/
def alicePref : Preference :=
  { openid := "alice", context := "email", detail_value := none,
    enabled := true, batch_delta := none, batch_count := none,
    filters := [{ name := "f1", rules := [] }] }

/-- A database with one user, one context, one preference and no
confirmations. -/
def testDB : DB :=
  { users := ["alice"], contexts := ["email"], prefs := [alicePref],
    confirmations := [] }

/-- `testDB` extended with one pending Confirmation holding secret
"tok". -/
def confDB : DB :=
  { testDB with
    confirmations := [{ openid := "alice", context_name := "email",
                        secret := "tok",
                        detail_value := "alice@example.com",
                        status := "pending" }] }

/-! ### Frame lemmas about the store operations -/

lemma updPref_confirmations (db : DB) (o c : String)
    (f : Preference → Preference) :
    (db.updPref o c f).confirmations = db.confirmations := rfl

lemma updPref_users (db : DB) (o c : String) (f : Preference → Preference) :
    (db.updPref o c f).users = db.users := rfl

lemma updPref_contexts (db : DB) (o c : String) (f : Preference → Preference) :
    (db.updPref o c f).contexts = db.contexts := rfl

lemma updConfBySecret_prefs (db : DB) (s : String)
    (f : Confirmation → Confirmation) :
    (db.updConfBySecret s f).prefs = db.prefs := rfl

lemma getOrCreatePref_confirmations (db : DB) (o c : String) :
    (db.getOrCreatePref o c).2.confirmations = db.confirmations := by
  cases h : db.findPref o c <;> simp [DB.getOrCreatePref, h]

lemma getOrCreatePref_users (db : DB) (o c : String) :
    (db.getOrCreatePref o c).2.users = db.users := by
  cases h : db.findPref o c <;> simp [DB.getOrCreatePref, h]

lemma getOrCreatePref_contexts (db : DB) (o c : String) :
    (db.getOrCreatePref o c).2.contexts = db.contexts := by
  cases h : db.findPref o c <;> simp [DB.getOrCreatePref, h]

lemma findPref_congr (dbX dbY : DB) (o c : String)
    (h : dbX.prefs = dbY.prefs) :
    dbX.findPref o c = dbY.findPref o c := by
  unfold DB.findPref
  rw [h]

lemma confsFor_congr (dbX dbY : DB) (o c : String)
    (h : dbX.confirmations = dbY.confirmations) :
    dbX.confsFor o c = dbY.confsFor o c := by
  unfold DB.confsFor
  rw [h]

lemma findPref_getOrCreatePref (db : DB) (o c : String) :
    (db.getOrCreatePref o c).2.findPref o c =
      some (db.getOrCreatePref o c).1 := by
  cases h : db.findPref o c with
  | some p => simp [DB.getOrCreatePref, h]
  | none =>
    unfold DB.getOrCreatePref
    rw [h]
    unfold DB.findPref at h ⊢
    simp [List.find?_append, h, List.find?]

lemma findPref_updPref (db : DB) (o c o2 c2 : String)
    (f : Preference → Preference)
    (hk : ∀ p, (f p).openid = p.openid ∧ (f p).context = p.context) :
    (db.updPref o c f).findPref o2 c2 =
      (db.findPref o2 c2).map
        (fun p => if p.openid == o && p.context == c then f p else p) := by
  unfold DB.updPref DB.findPref
  rw [List.find?_map]
  have hfun : ((fun q => q.openid == o2 && q.context == c2) ∘
      (fun p => if p.openid == o && p.context == c then f p else p)) =
      (fun p : Preference => p.openid == o2 && p.context == c2) := by
    funext p
    by_cases hp : (p.openid == o && p.context == c) = true <;>
      simp [Function.comp, hp, (hk p).1, (hk p).2]
  rw [hfun]

lemma findPref_map_updPref {α : Type} (proj : Preference → α) (db : DB)
    (o c o2 c2 : String) (f : Preference → Preference)
    (hk : ∀ p, (f p).openid = p.openid ∧ (f p).context = p.context)
    (hp : ∀ p, proj (f p) = proj p) :
    ((db.updPref o c f).findPref o2 c2).map proj =
      (db.findPref o2 c2).map proj := by
  rw [findPref_updPref db o c o2 c2 f hk]
  cases db.findPref o2 c2 with
  | none => rfl
  | some p =>
    by_cases hq : p.openid = o ∧ p.context = c <;> simp [hq, hp]

lemma bySecret_updPref (db : DB) (o c : String) (f : Preference → Preference)
    (s : String) :
    (db.updPref o c f).bySecret s = db.bySecret s := rfl

lemma bySecret_updConfBySecret (db : DB) (s s2 : String)
    (f : Confirmation → Confirmation) (hs : ∀ k, (f k).secret = k.secret) :
    (db.updConfBySecret s2 f).bySecret s =
      (db.bySecret s).map (fun k => if k.secret == s2 then f k else k) := by
  unfold DB.updConfBySecret DB.bySecret
  rw [List.find?_map]
  have hfun : ((fun q => q.secret == s) ∘
      (fun k => if k.secret == s2 then f k else k)) =
      (fun k : Confirmation => k.secret == s) := by
    funext k
    by_cases hk : (k.secret == s2) = true <;> simp [Function.comp, hk, hs k]
  rw [hfun]

lemma confsFor_updPref (db : DB) (o c o2 c2 : String)
    (f : Preference → Preference) :
    (db.updPref o c f).confsFor o2 c2 = db.confsFor o2 c2 := rfl

lemma confsFor_updConfBySecret (db : DB) (s o c : String)
    (f : Confirmation → Confirmation)
    (hk : ∀ k, (f k).openid = k.openid ∧ (f k).context_name = k.context_name) :
    (db.updConfBySecret s f).confsFor o c =
      (db.confsFor o c).map (fun k => if k.secret == s then f k else k) := by
  unfold DB.updConfBySecret DB.confsFor
  rw [List.filter_map]
  have hfun : ((fun q => q.openid == o && q.context_name == c) ∘
      (fun k => if k.secret == s then f k else k)) =
      (fun k : Confirmation => k.openid == o && k.context_name == c) := by
    funext k
    by_cases hks : (k.secret == s) = true <;>
      simp [Function.comp, hks, (hk k).1, (hk k).2]
  rw [hfun]

lemma batchStep_confirmations (db : DB) (o c : String)
    (bd bc : Option String) :
    (batchStep db o c bd bc).2.confirmations = db.confirmations := by
  unfold batchStep
  by_cases h : (truthy bd || truthy bc) = true
  · cases h1 : int_or_none bd <;> cases h2 : int_or_none bc <;>
      simp [h, h1, h2, DB.setBatchValues, updPref_confirmations]
  · simp [h]

lemma batchStep_detail (db : DB) (o c o2 c2 : String)
    (bd bc : Option String) :
    ((batchStep db o c bd bc).2.findPref o2 c2).map Preference.detail_value =
      (db.findPref o2 c2).map Preference.detail_value := by
  unfold batchStep
  by_cases h : (truthy bd || truthy bc) = true
  · cases h1 : int_or_none bd <;> cases h2 : int_or_none bc <;> simp [h, h1, h2]
    exact findPref_map_updPref Preference.detail_value db o c o2 c2 _
      (fun p => ⟨rfl, rfl⟩) (fun p => rfl)
  · simp [h]

lemma batchToggleStep_confirmations (db : DB) (o c : String)
    (bd bc : Option String) (t : Bool) :
    (batchToggleStep db o c bd bc t).2.confirmations = db.confirmations := by
  unfold batchToggleStep
  cases hb : batchStep db o c bd bc with
  | mk r db3 =>
    have h3 : db3.confirmations = db.confirmations := by
      have := batchStep_confirmations db o c bd bc
      rwa [hb] at this
    cases r <;> cases t <;> simp [h3, updPref_confirmations]

lemma batchToggleStep_detail (db : DB) (o c o2 c2 : String)
    (bd bc : Option String) (t : Bool) :
    ((batchToggleStep db o c bd bc t).2.findPref o2 c2).map
        Preference.detail_value =
      (db.findPref o2 c2).map Preference.detail_value := by
  unfold batchToggleStep
  cases hb : batchStep db o c bd bc with
  | mk r db3 =>
    have h3 : (db3.findPref o2 c2).map Preference.detail_value =
        (db.findPref o2 c2).map Preference.detail_value := by
      have := batchStep_detail db o c o2 c2 bd bc
      rwa [hb] at this
    cases r with
    | ok a =>
      cases t with
      | true =>
        show ((db3.updPref o c
            (fun p => { p with enabled := !p.enabled })).findPref o2 c2).map
            Preference.detail_value = _
        rw [findPref_map_updPref Preference.detail_value db3 o c o2 c2
          (fun p => { p with enabled := !p.enabled })
          (fun p => ⟨rfl, rfl⟩) (fun p => rfl)]
        exact h3
      | false => simpa using h3
    | apiError s r => simpa using h3
    | exc e => simpa using h3

lemma batchStep_none (db : DB) (o c : String) :
    batchStep db o c none none = (.ok (), db) := rfl

lemma getOrCreatePref_key (db : DB) (o c : String) :
    (db.getOrCreatePref o c).1.openid = o ∧
      (db.getOrCreatePref o c).1.context = c := by
  cases h : db.findPref o c with
  | some p =>
    have hp := List.find?_some h
    simp only [Bool.and_eq_true, beq_iff_eq] at hp
    simp [DB.getOrCreatePref, h, hp.1, hp.2]
  | none => simp [DB.getOrCreatePref, h]

lemma getOrCreatePref_found (db : DB) (o c : String) (p : Preference)
    (h : db.findPref o c = some p) :
    db.getOrCreatePref o c = (p, db) := by
  unfold DB.getOrCreatePref
  rw [h]

lemma findPref_updPref_found (db : DB) (o c : String)
    (f : Preference → Preference) (p : Preference)
    (hk : ∀ q, (f q).openid = q.openid ∧ (f q).context = q.context)
    (h : db.findPref o c = some p) :
    (db.updPref o c f).findPref o c = some (f p) := by
  rw [findPref_updPref db o c o c f hk, h]
  have hp := List.find?_some h
  simp only [Bool.and_eq_true, beq_iff_eq] at hp
  simp [hp.1, hp.2]

lemma bySecret_key (db : DB) (secret : String) (k : Confirmation)
    (h : db.bySecret secret = some k) : k.secret = secret := by
  have hp := List.find?_some h
  simpa using hp

lemma head?_eq_singleton {α : Type} {l : List α} {a : α}
    (h1 : l.head? = some a) (h2 : l.length ≤ 1) : l = [a] := by
  cases l with
  | nil => simp at h1
  | cons x t =>
    simp at h1
    cases t with
    | nil => simp [h1]
    | cons y u => simp at h2

lemma detailStep_noop (env : Env) (db : DB) (pref : Preference)
    (o c : String) (dv : Option String) (fs : String)
    (h : ∀ v, dv = some v → v = "" ∨ some v = pref.detail_value) :
    detailStep env db pref o c dv fs = (.ok (), db) := by
  cases dv with
  | none => rfl
  | some v =>
    rcases h v rfl with h1 | h1
    · simp [detailStep, h1]
    · simp [detailStep, h1]

/-! ### Claims -/

/-- Claim C8: for every resolve call whose decision argument is any string
other than "accept" or "reject", `handle_confirmation` fails with 404
before the Confirmation is looked up, leaving the database untouched
whatever the supplied secret is. -/
theorem c8_invalid_action_not_found (db : DB) (caller action secret : String)
    (h1 : action ≠ "accept") (h2 : action ≠ "reject") :
    handle_confirmation db caller action secret = (.abort 404, db) := by
  simp [handle_confirmation, h1, h2]

/-- Witness for C8 at the concrete action "frobnicate". -/
theorem c8_invalid_action_not_found_witness :
    handle_confirmation confDB "alice" "frobnicate" "tok" =
      (.abort 404, confDB) :=
  c8_invalid_action_not_found confDB "alice" "frobnicate" "tok"
    (by decide) (by decide)

/-- Claim C6: for every resolve call on an existing Confirmation, a caller
whose identity differs from the Confirmation's user is rejected with 403
before any status change, even though the caller supplied the valid
secret. -/
theorem c6_resolve_requires_matching_identity (db : DB)
    (caller action secret : String) (k : Confirmation)
    (ha : action = "accept" ∨ action = "reject")
    (hk : db.bySecret secret = some k)
    (hne : caller ≠ k.openid) :
    handle_confirmation db caller action secret = (.abort 403, db) := by
  rcases ha with rfl | rfl <;> simp [handle_confirmation, hk, hne]

/-- Witness for C6: mallory holds alice's valid secret but is rejected. -/
theorem c6_resolve_requires_matching_identity_witness :
    handle_confirmation confDB "mallory" "accept" "tok" =
      (.abort 403, confDB) :=
  c6_resolve_requires_matching_identity confDB "mallory" "accept" "tok"
    { openid := "alice", context_name := "email", secret := "tok",
      detail_value := "alice@example.com", status := "pending" }
    (Or.inl rfl) (by decide) (by decide)

/-- The details form of the C7 failing input: a non-integer batch value. -/
def badBatchForm : DetailsForm :=
  { openid := "alice", context := "email", detail_value := none,
    batch_delta := some "abc", batch_count := some "1",
    toggle_enable := false }

/-- Claim C7 (code bug): the details-update operation does not always
yield a typed error — with batch_delta equal to "abc", `int_or_none` calls
`int("abc")`, which raises `ValueError`; the helper only catches
`TypeError`, and `api_method` only catches `APIError`, so a raw untyped
exception escapes to the caller. -/
theorem c7_raw_value_error_escapes :
    (api_method false (handle_details testEnv testDB "alice" "s1"
      badBatchForm)).1 = Response.unhandled "ValueError" := by
  decide

/-- The first call of the C5 scenario: delta supplied, count omitted. -/
def c5FormA : DetailsForm :=
  { openid := "alice", context := "email", detail_value := none,
    batch_delta := some "3600", batch_count := none,
    toggle_enable := false }

/-- The second call of the C5 scenario: delta omitted, count supplied. -/
def c5FormB : DetailsForm :=
  { openid := "alice", context := "email", detail_value := none,
    batch_delta := none, batch_count := some "10",
    toggle_enable := false }

/-- Counterexample to claim C5: running the claimed scenario — first
delta=3600 with count omitted, then delta omitted with count=10 — both
calls fail with a 400 error because `int_or_none` of the omitted `None`
field raises `TypeError`, and the final stored state still has
`batch_delta = null`, not 3600. -/
theorem c5_omission_counterexample :
    (handle_details testEnv testDB "alice" "s1" c5FormA).1 =
        .apiError 400 "batch_delta: Not a valid integer value" ∧
    (handle_details testEnv
        (handle_details testEnv testDB "alice" "s1" c5FormA).2
        "alice" "s1" c5FormB).1 =
        .apiError 400 "batch_delta: Not a valid integer value" ∧
    ((handle_details testEnv
        (handle_details testEnv testDB "alice" "s1" c5FormA).2
        "alice" "s1" c5FormB).2.findPref "alice" "email").map
        Preference.batch_delta ≠ some (some 3600) ∧
    ((handle_details testEnv
        (handle_details testEnv testDB "alice" "s1" c5FormA).2
        "alice" "s1" c5FormB).2.findPref "alice" "email").map
        Preference.batch_delta = some none := by
  refine ⟨by decide, by decide, by decide, by decide⟩

/-- Counterexample to claim C2: resolving the same secret twice.  The
first `accept` succeeds; the second resolve with the same secret succeeds
again (the handler looks the Confirmation up by secret only and performs
no pending-state check), instead of failing with 404 as the claim
requires. -/
theorem c2_second_resolve_counterexample :
    (handle_confirmation confDB "alice" "accept" "tok").1 =
        .redirect "alice" "email" ∧
    (handle_confirmation
        (handle_confirmation confDB "alice" "accept" "tok").2
        "alice" "accept" "tok").1 = .redirect "alice" "email" ∧
    (handle_confirmation
        (handle_confirmation confDB "alice" "accept" "tok").2
        "alice" "accept" "tok").1 ≠ ConfOutcome.abort 404 := by
  refine ⟨by decide, by decide, by decide⟩

/-- Claim C3: for each of the mutating operations — filter create/delete
(`handle_filter`), details/batch/enable update (`handle_details`) and rule
attach/detach (`handle_rule`) — an authenticated caller whose identifier
differs from the operation's target user and who is not an administrator
receives a 403 error, and no Preference, Filter, Rule or Confirmation
state is mutated (the database is returned unchanged). -/
theorem c3_forbidden_on_user_mismatch (env : Env) (db : DB)
    (caller reqMethod freshSecret : String)
    (ff : FilterForm) (df : DetailsForm) (rf : RuleForm)
    (hadmin : env.isAdmin caller = false)
    (hfv : ff.valid) (hfne : caller ≠ ff.openid)
    (hdv : df.valid) (hdne : caller ≠ df.openid)
    (hrv : rf.valid) (hrne : caller ≠ rf.openid) :
    handle_filter env db caller reqMethod ff =
      (.apiError 403 (caller ++ " is not " ++ ff.openid), db) ∧
    handle_details env db caller freshSecret df =
      (.apiError 403 (caller ++ " is not " ++ df.openid), db) ∧
    handle_rule env db caller reqMethod rf =
      (.apiError 403 (caller ++ " is not " ++ rf.openid), db) := by
  refine ⟨?_, ?_, ?_⟩
  · simp [handle_filter, hfv, hfne, hadmin]
  · simp [handle_details, hdv, hdne, hadmin]
  · simp [handle_rule, hrv, hrne, hadmin]

/-- Witness for C3: mallory targeting alice's data is rejected by all
three handlers with the database unchanged. -/
theorem c3_forbidden_on_user_mismatch_witness :
    handle_filter testEnv testDB "mallory" "POST"
        { openid := "alice", context := "email", filter_name := "f2",
          method := none } =
      (.apiError 403 ("mallory" ++ " is not " ++ "alice"), testDB) ∧
    handle_details testEnv testDB "mallory" "s1"
        { openid := "alice", context := "email", detail_value := none,
          batch_delta := none, batch_count := none,
          toggle_enable := false } =
      (.apiError 403 ("mallory" ++ " is not " ++ "alice"), testDB) ∧
    handle_rule testEnv testDB "mallory" "POST"
        { openid := "alice", context := "email", filter_name := "f1",
          rule_name := "r", method := none, arguments := [] } =
      (.apiError 403 ("mallory" ++ " is not " ++ "alice"), testDB) :=
  c3_forbidden_on_user_mismatch testEnv testDB "mallory" "POST" "s1"
    _ _ _ rfl (by decide) (by decide) (by decide) (by decide)
    (by decide) (by decide)

/-- Reduction of `handle_details` when called by the target user on an
existing user and context with a detail value that is absent, empty or
equal to the stored one: the handler reduces to the batch-and-toggle tail
run on the state after the Preference get-or-create. -/
lemma handle_details_ok_shape (env : Env) (db : DB) (fs : String)
    (form : DetailsForm)
    (hov : form.openid ≠ "") (hcv : form.context ≠ "")
    (hu : form.openid ∈ db.users) (hctx : form.context ∈ db.contexts)
    (hnoop : ∀ v, form.detail_value = some v → v = "" ∨
      some v = (db.getOrCreatePref form.openid form.context).1.detail_value) :
    handle_details env db form.openid fs form =
      match batchToggleStep (db.getOrCreatePref form.openid form.context).2
          form.openid form.context form.batch_delta form.batch_count
          form.toggle_enable with
      | (.apiError s r, db4) => (.apiError s r, db4)
      | (.exc e, db4) => (.exc e, db4)
      | (.ok _, db4) =>
        (.ok (url_for_context form.openid form.context), db4) := by
  have hvalid : form.valid := ⟨hov, hcv⟩
  have hds := detailStep_noop env
    (db.getOrCreatePref form.openid form.context).2
    (db.getOrCreatePref form.openid form.context).1
    form.openid form.context form.detail_value fs hnoop
  unfold handle_details
  simp [hvalid, hu, hctx, hds]

/-- The batch-and-toggle tail with both batch fields absent and the toggle
set reduces to negating the enabled flag. -/
lemma batchToggleStep_toggle (db : DB) (o c : String) :
    batchToggleStep db o c none none true =
      (.ok (), db.updPref o c (fun p => { p with enabled := !p.enabled })) := by
  unfold batchToggleStep
  rw [batchStep_none]
  rfl

/-- Claim C9: the enable toggle is an involution — two successive
details-update calls by the target user with only `toggle_enable` set
leave the Preference's enabled flag at its original value. -/
theorem c9_toggle_enable_involution (env : Env) (db : DB) (o c fs : String)
    (ho : o ≠ "") (hc : c ≠ "") (hu : o ∈ db.users) (hctx : c ∈ db.contexts) :
    ((handle_details env
        (handle_details env db o fs
          { openid := o, context := c, detail_value := none,
            batch_delta := none, batch_count := none,
            toggle_enable := true }).2 o fs
        { openid := o, context := c, detail_value := none,
          batch_delta := none, batch_count := none,
          toggle_enable := true }).2.findPref o c).map Preference.enabled =
      some (db.getOrCreatePref o c).1.enabled := by
  have hnoop : ∀ (dbx : DB), ∀ v : String, (none : Option String) = some v →
      v = "" ∨ some v = (dbx.getOrCreatePref o c).1.detail_value := by
    intro dbx v hv
    cases hv
  have h1 := handle_details_ok_shape env db fs
    { openid := o, context := c, detail_value := none,
      batch_delta := none, batch_count := none, toggle_enable := true }
    ho hc hu hctx (hnoop db)
  rw [batchToggleStep_toggle] at h1
  have hneg : ∀ q : Preference,
      ((fun p : Preference => { p with enabled := !p.enabled }) q).openid = q.openid ∧
      ((fun p : Preference => { p with enabled := !p.enabled }) q).context = q.context :=
    fun q => ⟨rfl, rfl⟩
  have hfind1 : ((db.getOrCreatePref o c).2.updPref o c
      (fun p : Preference => { p with enabled := !p.enabled })).findPref o c =
      some ({ (db.getOrCreatePref o c).1 with
              enabled := !(db.getOrCreatePref o c).1.enabled } : Preference) :=
    findPref_updPref_found _ o c _ _ hneg (findPref_getOrCreatePref db o c)
  have hu1 : o ∈ ((db.getOrCreatePref o c).2.updPref o c
      (fun p : Preference => { p with enabled := !p.enabled })).users := by
    rw [updPref_users, getOrCreatePref_users]
    exact hu
  have hc1 : c ∈ ((db.getOrCreatePref o c).2.updPref o c
      (fun p : Preference => { p with enabled := !p.enabled })).contexts := by
    rw [updPref_contexts, getOrCreatePref_contexts]
    exact hctx
  have h2 := handle_details_ok_shape env
    ((db.getOrCreatePref o c).2.updPref o c
      (fun p : Preference => { p with enabled := !p.enabled })) fs
    { openid := o, context := c, detail_value := none,
      batch_delta := none, batch_count := none, toggle_enable := true }
    ho hc hu1 hc1 (hnoop _)
  rw [batchToggleStep_toggle] at h2
  have hgoc2 := getOrCreatePref_found _ o c _ hfind1
  rw [hgoc2] at h2
  rw [h1]
  simp only []
  rw [h2]
  simp only []
  rw [findPref_updPref_found _ o c _ _ hneg hfind1]
  simp

/-- Witness for C9 on the concrete test database: toggling alice's email
delivery twice restores the enabled flag. -/
theorem c9_toggle_enable_involution_witness :
    ((handle_details testEnv
        (handle_details testEnv testDB "alice" "s1"
          { openid := "alice", context := "email", detail_value := none,
            batch_delta := none, batch_count := none,
            toggle_enable := true }).2 "alice" "s1"
        { openid := "alice", context := "email", detail_value := none,
          batch_delta := none, batch_count := none,
          toggle_enable := true }).2.findPref "alice" "email").map
        Preference.enabled =
      some (testDB.getOrCreatePref "alice" "email").1.enabled :=
  c9_toggle_enable_involution testEnv testDB "alice" "email" "s1"
    (by decide) (by decide) (by decide) (by decide)

/-- Claim C10: when the supplied detail value is absent, empty or equal to
the stored one, the detail path is a no-op — the outcome is independent of
the context's detail validator (it is never invoked), the confirmations
are untouched, and the Preference's `detail_value` is unchanged; only the
batch and enabled fields may change. -/
theorem c10_detail_noop_when_empty_or_equal
    (admins : List String) (verify : Bool)
    (vd1 vd2 : String → String → Bool) (vcp : String → Bool)
    (va : String → List (String × String) → Bool)
    (db : DB) (fs : String) (form : DetailsForm)
    (hov : form.openid ≠ "") (hcv : form.context ≠ "")
    (hu : form.openid ∈ db.users) (hctx : form.context ∈ db.contexts)
    (hguard : ∀ v, form.detail_value = some v → v = "" ∨
      some v = (db.getOrCreatePref form.openid form.context).1.detail_value) :
    handle_details
        { admins := admins, verify_delivery_details := verify,
          validate_detail := vd1, valid_code_path := vcp,
          validate_args := va } db form.openid fs form =
      handle_details
        { admins := admins, verify_delivery_details := verify,
          validate_detail := vd2, valid_code_path := vcp,
          validate_args := va } db form.openid fs form ∧
    (handle_details
        { admins := admins, verify_delivery_details := verify,
          validate_detail := vd1, valid_code_path := vcp,
          validate_args := va } db form.openid fs form).2.confirmations =
      db.confirmations ∧
    ((handle_details
        { admins := admins, verify_delivery_details := verify,
          validate_detail := vd1, valid_code_path := vcp,
          validate_args := va } db form.openid fs form).2.findPref
        form.openid form.context).map Preference.detail_value =
      some (db.getOrCreatePref form.openid form.context).1.detail_value := by
  have h1 := handle_details_ok_shape
    { admins := admins, verify_delivery_details := verify,
      validate_detail := vd1, valid_code_path := vcp, validate_args := va }
    db fs form hov hcv hu hctx hguard
  have h2 := handle_details_ok_shape
    { admins := admins, verify_delivery_details := verify,
      validate_detail := vd2, valid_code_path := vcp, validate_args := va }
    db fs form hov hcv hu hctx hguard
  refine ⟨h1.trans h2.symm, ?_, ?_⟩
  · rw [h1]
    cases hbt : batchToggleStep (db.getOrCreatePref form.openid form.context).2
        form.openid form.context form.batch_delta form.batch_count
        form.toggle_enable with
    | mk r db4 =>
      have hk4 : db4.confirmations = db.confirmations := by
        have hx := batchToggleStep_confirmations
          (db.getOrCreatePref form.openid form.context).2
          form.openid form.context form.batch_delta form.batch_count
          form.toggle_enable
        rw [hbt] at hx
        rw [hx, getOrCreatePref_confirmations]
      cases r <;> simpa using hk4
  · rw [h1]
    cases hbt : batchToggleStep (db.getOrCreatePref form.openid form.context).2
        form.openid form.context form.batch_delta form.batch_count
        form.toggle_enable with
    | mk r db4 =>
      have hk4 : (db4.findPref form.openid form.context).map
          Preference.detail_value =
          some (db.getOrCreatePref form.openid form.context).1.detail_value := by
        have hx := batchToggleStep_detail
          (db.getOrCreatePref form.openid form.context).2
          form.openid form.context form.openid form.context
          form.batch_delta form.batch_count form.toggle_enable
        rw [hbt] at hx
        rw [hx, findPref_getOrCreatePref]
        rfl
      cases r <;> simpa using hk4

/-- Witness for C10: two different validators, one accepting and one
rejecting everything, give the same outcome on a call resubmitting
alice's stored detail value, with confirmations and detail value
untouched. -/
theorem c10_detail_noop_when_empty_or_equal_witness :
    handle_details
        { admins := [], verify_delivery_details := true,
          validate_detail := fun _ _ => true,
          valid_code_path := fun _ => true,
          validate_args := fun _ _ => true } testDB "alice" "s1"
        { openid := "alice", context := "email", detail_value := some "",
          batch_delta := none, batch_count := none,
          toggle_enable := true } =
      handle_details
        { admins := [], verify_delivery_details := true,
          validate_detail := fun _ _ => false,
          valid_code_path := fun _ => true,
          validate_args := fun _ _ => true } testDB "alice" "s1"
        { openid := "alice", context := "email", detail_value := some "",
          batch_delta := none, batch_count := none,
          toggle_enable := true } ∧
    (handle_details
        { admins := [], verify_delivery_details := true,
          validate_detail := fun _ _ => true,
          valid_code_path := fun _ => true,
          validate_args := fun _ _ => true } testDB "alice" "s1"
        { openid := "alice", context := "email", detail_value := some "",
          batch_delta := none, batch_count := none,
          toggle_enable := true }).2.confirmations = testDB.confirmations ∧
    ((handle_details
        { admins := [], verify_delivery_details := true,
          validate_detail := fun _ _ => true,
          valid_code_path := fun _ => true,
          validate_args := fun _ _ => true } testDB "alice" "s1"
        { openid := "alice", context := "email", detail_value := some "",
          batch_delta := none, batch_count := none,
          toggle_enable := true }).2.findPref "alice" "email").map
        Preference.detail_value =
      some (testDB.getOrCreatePref "alice" "email").1.detail_value :=
  c10_detail_noop_when_empty_or_equal [] true
    (fun _ _ => true) (fun _ _ => false) (fun _ => true) (fun _ _ => true)
    testDB "s1"
    { openid := "alice", context := "email", detail_value := some "",
      batch_delta := none, batch_count := none, toggle_enable := true }
    (by decide) (by decide) (by decide) (by decide)
    (by intro v hv; cases hv; exact Or.inl rfl)

/-- Claim C2 (amended): `handle_confirmation` fails with 404 only when the
action is invalid or no Confirmation holds the secret; it performs no
pending-state check, so when a Confirmation holds the secret and the
caller matches its user, a resolve succeeds and a second resolve with the
same secret succeeds again (re-setting the status) instead of failing
with 404. -/
theorem c2_amended_resolve_ignores_status (db : DB)
    (caller secret a1 a2 : String) (k : Confirmation)
    (ha1 : a1 = "accept" ∨ a1 = "reject")
    (ha2 : a2 = "accept" ∨ a2 = "reject")
    (hk : db.bySecret secret = some k) (hcaller : caller = k.openid) :
    (handle_confirmation db caller a1 secret).1 =
      .redirect k.openid k.context_name ∧
    (handle_confirmation (handle_confirmation db caller a1 secret).2
        caller a2 secret).1 = .redirect k.openid k.context_name := by
  have hks : k.secret = secret := bySecret_key db secret k hk
  have hs1 : ∀ s : String, (db.confSetStatus k s).bySecret secret =
      some ({ k with status := s } : Confirmation) := by
    intro s
    unfold DB.confSetStatus
    have hupd : (db.updConfBySecret k.secret
        (fun c => { c with status := s })).bySecret secret =
        some ({ k with status := s } : Confirmation) := by
      rw [bySecret_updConfBySecret db secret k.secret
        (fun c => { c with status := s }) (fun c => rfl), hk]
      simp [hks]
    by_cases hacc : s = "accepted"
    · rw [if_pos hacc, bySecret_updPref]
      exact hupd
    · rw [if_neg hacc]
      exact hupd
  rcases ha1 with rfl | rfl <;> rcases ha2 with rfl | rfl <;>
    simp [handle_confirmation, hk, hcaller, hs1]

/-- Witness for C2 (amended): alice re-resolves her own secret twice and
both calls succeed. -/
theorem c2_amended_resolve_ignores_status_witness :
    (handle_confirmation confDB "alice" "accept" "tok").1 =
      ConfOutcome.redirect "alice" "email" ∧
    (handle_confirmation (handle_confirmation confDB "alice" "accept" "tok").2
        "alice" "reject" "tok").1 = ConfOutcome.redirect "alice" "email" :=
  c2_amended_resolve_ignores_status confDB "alice" "tok" "accept" "reject"
    { openid := "alice", context_name := "email", secret := "tok",
      detail_value := "alice@example.com", status := "pending" }
    (Or.inl rfl) (Or.inr rfl) (by decide) rfl

/-- The batch branch when the first field parses but the second is the
missing `None`: `int(None)` raises `TypeError`, converted to a 400
`APIError`, and nothing is stored. -/
lemma batchStep_missing_second (db : DB) (o c s : String) (d : Option Int)
    (hs : s ≠ "") (hp : int_or_none (some s) = .ok d) :
    batchStep db o c (some s) none =
      (.apiError 400 "batch_delta: Not a valid integer value", db) := by
  unfold batchStep
  rw [hp]
  have ht : (truthy (some s) || truthy none) = true := by simp [truthy, hs]
  rw [if_pos ht]
  rfl

/-- The batch branch when the first field is the missing `None` and the
second is truthy: the first `int_or_none` call already fails with the 400
`APIError` and nothing is stored. -/
lemma batchStep_missing_first (db : DB) (o c s : String) (hs : s ≠ "") :
    batchStep db o c none (some s) =
      (.apiError 400 "batch_delta: Not a valid integer value", db) := by
  unfold batchStep
  have ht : (truthy none || truthy (some s)) = true := by simp [truthy, hs]
  rw [if_pos ht]
  rfl

/-- Claim C5 (amended): the batch knobs are not independent under
omission — whenever one batch argument is supplied and the other omitted,
`handle_details` fails with a 400 error and neither stored batch value
changes, so the claimed scenario ends with both values still unset; the
string "<disabled>" does map to null when both arguments are supplied. -/
theorem c5_amended_batch_knobs (env : Env) (db : DB) (fs o c s : String)
    (d : Option Int)
    (ho : o ≠ "") (hc : c ≠ "") (hu : o ∈ db.users) (hctx : c ∈ db.contexts)
    (hs : s ≠ "") (hp : int_or_none (some s) = .ok d) :
    handle_details env db o fs
        { openid := o, context := c, detail_value := none,
          batch_delta := some s, batch_count := none,
          toggle_enable := false } =
      (.apiError 400 "batch_delta: Not a valid integer value",
       (db.getOrCreatePref o c).2) ∧
    handle_details env db o fs
        { openid := o, context := c, detail_value := none,
          batch_delta := none, batch_count := some s,
          toggle_enable := false } =
      (.apiError 400 "batch_delta: Not a valid integer value",
       (db.getOrCreatePref o c).2) ∧
    ((handle_details env db o fs
        { openid := o, context := c, detail_value := none,
          batch_delta := some "<disabled>", batch_count := some "<disabled>",
          toggle_enable := false }).2.findPref o c).map
        (fun p => (p.batch_delta, p.batch_count)) =
      some (none, none) := by
  have hnoop : ∀ v : String, (none : Option String) = some v → v = "" ∨
      some v = (db.getOrCreatePref o c).1.detail_value := by
    intro v hv
    cases hv
  refine ⟨?_, ?_, ?_⟩
  · have h1 := handle_details_ok_shape env db fs
      { openid := o, context := c, detail_value := none,
        batch_delta := some s, batch_count := none, toggle_enable := false }
      ho hc hu hctx hnoop
    dsimp only at h1
    rw [h1]
    have hbt : batchToggleStep (db.getOrCreatePref o c).2 o c (some s) none
        false =
        (.apiError 400 "batch_delta: Not a valid integer value",
         (db.getOrCreatePref o c).2) := by
      unfold batchToggleStep
      rw [batchStep_missing_second _ o c s d hs hp]
    rw [hbt]
  · have h1 := handle_details_ok_shape env db fs
      { openid := o, context := c, detail_value := none,
        batch_delta := none, batch_count := some s, toggle_enable := false }
      ho hc hu hctx hnoop
    dsimp only at h1
    rw [h1]
    have hbt : batchToggleStep (db.getOrCreatePref o c).2 o c none (some s)
        false =
        (.apiError 400 "batch_delta: Not a valid integer value",
         (db.getOrCreatePref o c).2) := by
      unfold batchToggleStep
      rw [batchStep_missing_first _ o c s hs]
    rw [hbt]
  · have h1 := handle_details_ok_shape env db fs
      { openid := o, context := c, detail_value := none,
        batch_delta := some "<disabled>", batch_count := some "<disabled>",
        toggle_enable := false }
      ho hc hu hctx hnoop
    dsimp only at h1
    rw [h1]
    have hbs : batchStep (db.getOrCreatePref o c).2 o c (some "<disabled>")
        (some "<disabled>") =
        (.ok (), (db.getOrCreatePref o c).2.setBatchValues o c none none) :=
      rfl
    have hbt : batchToggleStep (db.getOrCreatePref o c).2 o c
        (some "<disabled>") (some "<disabled>") false =
        (.ok (), (db.getOrCreatePref o c).2.setBatchValues o c none none) := by
      unfold batchToggleStep
      rw [hbs]
      rfl
    rw [hbt]
    show (((db.getOrCreatePref o c).2.setBatchValues o c none none).findPref
        o c).map (fun p => (p.batch_delta, p.batch_count)) = some (none, none)
    unfold DB.setBatchValues
    rw [findPref_updPref_found _ o c
      (fun p : Preference =>
        { p with batch_delta := (none : Option Int),
                 batch_count := (none : Option Int) }) _
      (fun q => ⟨rfl, rfl⟩) (findPref_getOrCreatePref db o c)]
    rfl

/-- Witness for C5 (amended) at the claimed inputs delta=3600 and
count=10 on the concrete test database. -/
theorem c5_amended_batch_knobs_witness :
    handle_details testEnv testDB "alice" "s1"
        { openid := "alice", context := "email", detail_value := none,
          batch_delta := some "3600", batch_count := none,
          toggle_enable := false } =
      (.apiError 400 "batch_delta: Not a valid integer value",
       (testDB.getOrCreatePref "alice" "email").2) ∧
    handle_details testEnv testDB "alice" "s1"
        { openid := "alice", context := "email", detail_value := none,
          batch_delta := none, batch_count := some "3600",
          toggle_enable := false } =
      (.apiError 400 "batch_delta: Not a valid integer value",
       (testDB.getOrCreatePref "alice" "email").2) ∧
    ((handle_details testEnv testDB "alice" "s1"
        { openid := "alice", context := "email", detail_value := none,
          batch_delta := some "<disabled>", batch_count := some "<disabled>",
          toggle_enable := false }).2.findPref "alice" "email").map
        (fun p => (p.batch_delta, p.batch_count)) =
      some (none, none) :=
  c5_amended_batch_knobs testEnv testDB "s1" "alice" "email" "3600"
    (some 3600) (by decide) (by decide) (by decide) (by decide) (by decide)
    (by decide)

lemma getOrCreateConf_prefs (db : DB) (o c fs : String) :
    (db.getOrCreateConf o c fs).2.prefs = db.prefs := by
  unfold DB.getOrCreateConf
  cases h : (db.confsFor o c).head? <;> simp [h]

/-- The confirmation chain run by the verify branch of the detail step
(get-or-create, set value, set status pending) leaves the preferences
untouched. -/
lemma detailChain_prefs (db : DB) (o c v fs : String) :
    (((db.getOrCreateConf o c fs).2.confSetValue
        (db.getOrCreateConf o c fs).1 v).confSetStatus
        { (db.getOrCreateConf o c fs).1 with detail_value := v }
        "pending").prefs = db.prefs := by
  unfold DB.confSetStatus DB.confSetValue
  rw [if_neg (by decide : ¬ (("pending" : String) = "accepted"))]
  rw [updConfBySecret_prefs, updConfBySecret_prefs, getOrCreateConf_prefs]

/-- The confirmation chain of the verify branch, run on a database holding
at most one Confirmation for the pair, leaves exactly one Confirmation for
the pair: value the proposed one, status pending. -/
lemma detailChain_confsFor (db : DB) (o c v fs : String)
    (honce : (db.confsFor o c).length ≤ 1) :
    ∃ s, (((db.getOrCreateConf o c fs).2.confSetValue
        (db.getOrCreateConf o c fs).1 v).confSetStatus
        { (db.getOrCreateConf o c fs).1 with detail_value := v }
        "pending").confsFor o c =
      [{ openid := o, context_name := c, secret := s,
         detail_value := v, status := "pending" }] := by
  have hk1 : ∀ q : Confirmation,
      ((fun q : Confirmation => { q with detail_value := v }) q).openid =
        q.openid ∧
      ((fun q : Confirmation => { q with detail_value := v }) q).context_name =
        q.context_name := fun q => ⟨rfl, rfl⟩
  have hk2 : ∀ q : Confirmation,
      ((fun q : Confirmation => { q with status := "pending" }) q).openid =
        q.openid ∧
      ((fun q : Confirmation =>
        { q with status := "pending" }) q).context_name =
        q.context_name := fun q => ⟨rfl, rfl⟩
  cases h : (db.confsFor o c).head? with
  | some k =>
    have hl : db.confsFor o c = [k] := head?_eq_singleton h honce
    have hgc : db.getOrCreateConf o c fs = (k, db) := by
      unfold DB.getOrCreateConf
      rw [h]
    have hkmem : k ∈ db.confsFor o c := by
      rw [hl]
      exact List.mem_singleton.mpr rfl
    have hpred := (List.mem_filter.mp hkmem).2
    simp only [Bool.and_eq_true, beq_iff_eq] at hpred
    refine ⟨k.secret, ?_⟩
    rw [hgc]
    unfold DB.confSetStatus DB.confSetValue
    rw [if_neg (by decide : ¬ (("pending" : String) = "accepted"))]
    rw [confsFor_updConfBySecret _ _ o c _ hk2,
      confsFor_updConfBySecret _ _ o c _ hk1, hl]
    simp [hpred.1, hpred.2]
  | none =>
    have hl : db.confsFor o c = [] := by
      cases hc : db.confsFor o c with
      | nil => rfl
      | cons x t => rw [hc] at h; simp at h
    have hgc : db.getOrCreateConf o c fs =
        ({ openid := o, context_name := c, secret := fs,
           detail_value := "", status := "pending" },
         { db with confirmations := db.confirmations ++
             [{ openid := o, context_name := c, secret := fs,
                detail_value := "", status := "pending" }] }) := by
      unfold DB.getOrCreateConf
      rw [h]
    refine ⟨fs, ?_⟩
    rw [hgc]
    unfold DB.confSetStatus DB.confSetValue
    rw [if_neg (by decide : ¬ (("pending" : String) = "accepted"))]
    rw [confsFor_updConfBySecret _ _ o c _ hk2,
      confsFor_updConfBySecret _ _ o c _ hk1]
    have hnew : ({ db with confirmations := db.confirmations ++
        [{ openid := o, context_name := c, secret := fs,
           detail_value := "", status := "pending" }] } : DB).confsFor o c =
        [{ openid := o, context_name := c, secret := fs,
           detail_value := "", status := "pending" }] := by
      unfold DB.confsFor at hl ⊢
      rw [List.filter_append, hl]
      simp
    rw [hnew]
    simp

/-- Reduction of `handle_details` when called by the target user on an
existing user and context with a non-empty detail value differing from the
stored one that passes the validator, under the verification policy: the
handler runs the confirmation chain and then the batch-and-toggle tail. -/
lemma handle_details_verify_shape (env : Env) (db : DB) (fs : String)
    (form : DetailsForm) (v : String)
    (hverify : env.verify_delivery_details = true)
    (hov : form.openid ≠ "") (hcv : form.context ≠ "")
    (hu : form.openid ∈ db.users) (hctx : form.context ∈ db.contexts)
    (hdv : form.detail_value = some v) (hv : v ≠ "")
    (hdiff : some v ≠
      (db.getOrCreatePref form.openid form.context).1.detail_value)
    (hval : env.validate_detail form.context v = true) :
    handle_details env db form.openid fs form =
      match batchToggleStep
          ((((db.getOrCreatePref form.openid form.context).2.getOrCreateConf
              form.openid form.context fs).2.confSetValue
              ((db.getOrCreatePref form.openid form.context).2.getOrCreateConf
                form.openid form.context fs).1 v).confSetStatus
              { ((db.getOrCreatePref form.openid
                  form.context).2.getOrCreateConf
                  form.openid form.context fs).1 with detail_value := v }
              "pending")
          form.openid form.context form.batch_delta form.batch_count
          form.toggle_enable with
      | (.apiError s r, db4) => (.apiError s r, db4)
      | (.exc e, db4) => (.exc e, db4)
      | (.ok _, db4) =>
        (.ok (url_for_context form.openid form.context), db4) := by
  have hvalid : form.valid := ⟨hov, hcv⟩
  unfold handle_details
  rw [hdv]
  simp [hvalid, hu, hctx, detailStep, hv, hdiff, hval, hverify]

/-- Claim C1: a details update by the target user with a non-empty detail
value differing from the stored one, passing the context validator, under
the verification policy, never mutates the Preference's `detail_value`;
instead exactly one Confirmation for the (user, context) pair remains —
obtained by get-or-create — with the proposed value set to the new detail
value and status pending. -/
theorem c1_detail_update_creates_pending_confirmation (env : Env) (db : DB)
    (fs : String) (form : DetailsForm) (v : String)
    (hverify : env.verify_delivery_details = true)
    (hov : form.openid ≠ "") (hcv : form.context ≠ "")
    (hu : form.openid ∈ db.users) (hctx : form.context ∈ db.contexts)
    (hdv : form.detail_value = some v) (hv : v ≠ "")
    (hdiff : some v ≠
      (db.getOrCreatePref form.openid form.context).1.detail_value)
    (hval : env.validate_detail form.context v = true)
    (honce : (db.confsFor form.openid form.context).length ≤ 1) :
    ((handle_details env db form.openid fs form).2.findPref form.openid
        form.context).map Preference.detail_value =
      some (db.getOrCreatePref form.openid form.context).1.detail_value ∧
    ∃ s, (handle_details env db form.openid fs form).2.confsFor form.openid
        form.context =
      [{ openid := form.openid, context_name := form.context, secret := s,
         detail_value := v, status := "pending" }] := by
  have hshape := handle_details_verify_shape env db fs form v hverify hov hcv
    hu hctx hdv hv hdiff hval
  have hchainprefs := detailChain_prefs
    (db.getOrCreatePref form.openid form.context).2 form.openid form.context
    v fs
  have honce2 : ((db.getOrCreatePref form.openid
      form.context).2.confsFor form.openid form.context).length ≤ 1 := by
    rw [confsFor_congr _ db _ _ (getOrCreatePref_confirmations db _ _)]
    exact honce
  have hchainconfs := detailChain_confsFor
    (db.getOrCreatePref form.openid form.context).2 form.openid form.context
    v fs honce2
  constructor
  · rw [hshape]
    cases hbt : batchToggleStep
        ((((db.getOrCreatePref form.openid form.context).2.getOrCreateConf
            form.openid form.context fs).2.confSetValue
            ((db.getOrCreatePref form.openid form.context).2.getOrCreateConf
              form.openid form.context fs).1 v).confSetStatus
            { ((db.getOrCreatePref form.openid form.context).2.getOrCreateConf
                form.openid form.context fs).1 with detail_value := v }
            "pending")
        form.openid form.context form.batch_delta form.batch_count
        form.toggle_enable with
    | mk r db4 =>
      have hx := batchToggleStep_detail
        ((((db.getOrCreatePref form.openid form.context).2.getOrCreateConf
            form.openid form.context fs).2.confSetValue
            ((db.getOrCreatePref form.openid form.context).2.getOrCreateConf
              form.openid form.context fs).1 v).confSetStatus
            { ((db.getOrCreatePref form.openid form.context).2.getOrCreateConf
                form.openid form.context fs).1 with detail_value := v }
            "pending")
        form.openid form.context form.openid form.context
        form.batch_delta form.batch_count form.toggle_enable
      rw [hbt] at hx
      have hfp : ((((db.getOrCreatePref form.openid
          form.context).2.getOrCreateConf
          form.openid form.context fs).2.confSetValue
          ((db.getOrCreatePref form.openid form.context).2.getOrCreateConf
            form.openid form.context fs).1 v).confSetStatus
          { ((db.getOrCreatePref form.openid form.context).2.getOrCreateConf
              form.openid form.context fs).1 with detail_value := v }
          "pending").findPref form.openid form.context =
          some (db.getOrCreatePref form.openid form.context).1 := by
        rw [findPref_congr _ (db.getOrCreatePref form.openid form.context).2
          _ _ hchainprefs]
        exact findPref_getOrCreatePref db form.openid form.context
      rw [hfp] at hx
      cases r <;> simpa using hx
  · obtain ⟨s, hs⟩ := hchainconfs
    refine ⟨s, ?_⟩
    rw [hshape]
    cases hbt : batchToggleStep
        ((((db.getOrCreatePref form.openid form.context).2.getOrCreateConf
            form.openid form.context fs).2.confSetValue
            ((db.getOrCreatePref form.openid form.context).2.getOrCreateConf
              form.openid form.context fs).1 v).confSetStatus
            { ((db.getOrCreatePref form.openid form.context).2.getOrCreateConf
                form.openid form.context fs).1 with detail_value := v }
            "pending")
        form.openid form.context form.batch_delta form.batch_count
        form.toggle_enable with
    | mk r db4 =>
      have hx := batchToggleStep_confirmations
        ((((db.getOrCreatePref form.openid form.context).2.getOrCreateConf
            form.openid form.context fs).2.confSetValue
            ((db.getOrCreatePref form.openid form.context).2.getOrCreateConf
              form.openid form.context fs).1 v).confSetStatus
            { ((db.getOrCreatePref form.openid form.context).2.getOrCreateConf
                form.openid form.context fs).1 with detail_value := v }
            "pending")
        form.openid form.context form.batch_delta form.batch_count
        form.toggle_enable
      rw [hbt] at hx
      have hcf : db4.confsFor form.openid form.context =
          [{ openid := form.openid, context_name := form.context,
             secret := s, detail_value := v, status := "pending" }] := by
        rw [confsFor_congr db4 _ _ _ hx]
        exact hs
      cases r <;> simpa using hcf

/-- Witness for C1: alice submits a new email detail value on the test
database; her stored detail value stays unchanged and a single pending
Confirmation carrying the proposed value remains. -/
theorem c1_detail_update_creates_pending_confirmation_witness :
    ((handle_details testEnv testDB "alice" "s1"
        { openid := "alice", context := "email",
          detail_value := some "alice@example.com", batch_delta := none,
          batch_count := none, toggle_enable := false }).2.findPref "alice"
        "email").map Preference.detail_value =
      some (testDB.getOrCreatePref "alice" "email").1.detail_value ∧
    ∃ s, (handle_details testEnv testDB "alice" "s1"
        { openid := "alice", context := "email",
          detail_value := some "alice@example.com", batch_delta := none,
          batch_count := none, toggle_enable := false }).2.confsFor "alice"
        "email" =
      [{ openid := "alice", context_name := "email", secret := s,
         detail_value := "alice@example.com", status := "pending" }] :=
  c1_detail_update_creates_pending_confirmation testEnv testDB "s1"
    { openid := "alice", context := "email",
      detail_value := some "alice@example.com", batch_delta := none,
      batch_count := none, toggle_enable := false }
    "alice@example.com" rfl (by decide) (by decide) (by decide) (by decide)
    rfl (by decide) (by decide) rfl (by decide)

lemma not_mem_names_of_no_filter (p : Preference) (n : String)
    (h : p.has_filter n = false) : n ∉ p.filters.map Filter.name := by
  unfold Preference.has_filter at h
  rw [List.any_eq_false] at h
  intro hmem
  obtain ⟨f, hf, hfn⟩ := List.mem_map.mp hmem
  exact h f hf (by simp [hfn])

lemma filter_name_count_one (l : List Filter) (n : String)
    (hnd : (l.map Filter.name).Nodup)
    (h : l.any (fun f => f.name == n) = true) :
    (l.filter (fun f => f.name == n)).length = 1 := by
  induction l with
  | nil => simp at h
  | cons f t ih =>
    rw [List.map_cons, List.nodup_cons] at hnd
    by_cases hfn : (f.name == n) = true
    · have hn : f.name = n := by simpa using hfn
      have ht : t.filter (fun f => f.name == n) = [] := by
        rw [List.filter_eq_nil_iff]
        intro g hg hgn
        apply hnd.1
        have hgname : g.name = n := by simpa using hgn
        rw [hn, ← hgname]
        exact List.mem_map.mpr ⟨g, hg, rfl⟩
      simp [List.filter_cons, hfn, ht]
    · have h' : t.any (fun g => g.name == n) = true := by
        rw [List.any_cons] at h
        simpa [hfn] using h
      simp [List.filter_cons, hfn, ih hnd.2 h']

lemma pairNodup_getOrCreatePref (db : DB) (o c : String)
    (h : (db.prefs.map (fun p => (p.openid, p.context))).Nodup) :
    ((db.getOrCreatePref o c).2.prefs.map
      (fun p => (p.openid, p.context))).Nodup := by
  cases hf : db.findPref o c with
  | some q =>
    rw [getOrCreatePref_found db o c q hf]
    exact h
  | none =>
    unfold DB.getOrCreatePref
    rw [hf]
    show ((db.prefs ++
      [(⟨o, c, none, true, none, none, []⟩ : Preference)]).map
      (fun p => (p.openid, p.context))).Nodup
    rw [List.map_append, List.nodup_append]
    refine ⟨h, by simp, ?_⟩
    simp only [List.map_cons, List.map_nil, List.disjoint_singleton]
    intro hmem
    obtain ⟨p, hp, hpq⟩ := List.mem_map.mp hmem
    unfold DB.findPref at hf
    apply List.find?_eq_none.mp hf p hp
    have h1 : p.openid = o := congrArg Prod.fst hpq
    have h2 : p.context = c := congrArg Prod.snd hpq
    simp [h1, h2]

lemma key_mem_getOrCreatePref (db : DB) (o c : String)
    (hnd : (db.prefs.map (fun p => (p.openid, p.context))).Nodup)
    (p : Preference) (hp : p ∈ (db.getOrCreatePref o c).2.prefs)
    (hkey : p.openid = o ∧ p.context = c) :
    p = (db.getOrCreatePref o c).1 := by
  cases hf : db.findPref o c with
  | some q =>
    rw [getOrCreatePref_found db o c q hf] at hp ⊢
    have hf' : db.prefs.find?
        (fun x => x.openid == o && x.context == c) = some q := hf
    have hqmem : q ∈ db.prefs := List.mem_of_find?_eq_some hf'
    have hqpred := List.find?_some hf'
    simp only [Bool.and_eq_true, beq_iff_eq] at hqpred
    exact List.inj_on_of_nodup_map hnd hp hqmem
      (by rw [hkey.1, hkey.2, hqpred.1, hqpred.2])
  | none =>
    have hgc : db.getOrCreatePref o c =
        (⟨o, c, none, true, none, none, []⟩,
         { db with prefs :=
             db.prefs ++ [⟨o, c, none, true, none, none, []⟩] }) := by
      unfold DB.getOrCreatePref
      rw [hf]
    rw [hgc] at hp ⊢
    rcases List.mem_append.mp hp with hl | hr
    · exfalso
      unfold DB.findPref at hf
      apply List.find?_eq_none.mp hf p hl
      simp [hkey.1, hkey.2]
    · simpa using hr

lemma nodupNames_getOrCreatePref (db : DB) (o c : String)
    (h : ∀ p ∈ db.prefs, (p.filters.map Filter.name).Nodup) :
    ∀ p ∈ (db.getOrCreatePref o c).2.prefs,
      (p.filters.map Filter.name).Nodup := by
  cases hf : db.findPref o c with
  | some q =>
    rw [getOrCreatePref_found db o c q hf]
    exact h
  | none =>
    unfold DB.getOrCreatePref
    rw [hf]
    intro p hp
    rcases List.mem_append.mp hp with hl | hr
    · exact h p hl
    · have hpn : p = ⟨o, c, none, true, none, none, []⟩ := by simpa using hr
      rw [hpn]
      simp

/-- Case analysis of the final database of `handle_filter`: untouched, the
get-or-create result, a filter appended to a Preference without one of
that name, or a filter deleted. -/
lemma handle_filter_snd_cases (env : Env) (db : DB)
    (caller reqMethod : String) (form : FilterForm) :
    (handle_filter env db caller reqMethod form).2 = db ∨
    (handle_filter env db caller reqMethod form).2 =
      (db.getOrCreatePref form.openid form.context).2 ∨
    ((handle_filter env db caller reqMethod form).2 =
      (db.getOrCreatePref form.openid form.context).2.addFilterTo
        form.openid form.context form.filter_name ∧
      (db.getOrCreatePref form.openid form.context).1.has_filter
        form.filter_name = false) ∨
    (handle_filter env db caller reqMethod form).2 =
      (db.getOrCreatePref form.openid form.context).2.deleteFilterFrom
        form.openid form.context form.filter_name := by
  unfold handle_filter
  by_cases h1 : ¬ form.valid
  · simp only [if_pos h1]
    left
    trivial
  simp only [if_neg h1]
  by_cases h2 : caller ≠ form.openid ∧ ¬ env.isAdmin caller
  · simp only [if_pos h2]
    left
    trivial
  simp only [if_neg h2]
  by_cases h3 : resolveMethod form.method reqMethod ≠ "POST" ∧
      resolveMethod form.method reqMethod ≠ "DELETE"
  · simp only [if_pos h3]
    left
    trivial
  simp only [if_neg h3]
  by_cases h4 : form.openid ∉ db.users
  · simp only [if_pos h4]
    left
    trivial
  simp only [if_neg h4]
  by_cases h5 : form.context ∉ db.contexts
  · simp only [if_pos h5]
    left
    trivial
  simp only [if_neg h5]
  by_cases h6 : resolveMethod form.method reqMethod = "POST"
  · simp only [if_pos h6]
    by_cases h7 : (db.getOrCreatePref form.openid form.context).1.has_filter
        form.filter_name = true
    · simp only [if_pos h7]
      right
      left
      trivial
    · simp only [if_neg h7]
      refine Or.inr (Or.inr (Or.inl ⟨by trivial, by simpa using h7⟩))
  · simp only [if_neg h6]
    cases hgf : (db.getOrCreatePref form.openid form.context).1.get_filter
        form.filter_name with
    | none =>
      simp only [hgf]
      right
      left
      trivial
    | some fl =>
      simp only [hgf]
      right
      right
      right
      trivial

/-- Claim C4: creating a Filter whose name already exists in the
Preference fails with the duplicate-name error, the database — hence the
existing Filter — is unchanged, and exactly one Filter with that name
remains; moreover, every `handle_filter` operation preserves
filter-name uniqueness within every Preference. -/
theorem c4_duplicate_filter_name_rejected :
    (∀ (env : Env) (db : DB) (reqMethod : String) (form : FilterForm),
      form.valid →
      resolveMethod form.method reqMethod = "POST" →
      form.openid ∈ db.users → form.context ∈ db.contexts →
      ((db.getOrCreatePref form.openid form.context).1.filters.map
        Filter.name).Nodup →
      (db.getOrCreatePref form.openid form.context).1.has_filter
        form.filter_name = true →
      handle_filter env db form.openid reqMethod form =
        (.apiError 404 (form.filter_name ++ " already exists"), db) ∧
      ((db.getOrCreatePref form.openid form.context).1.filters.filter
        (fun f => f.name == form.filter_name)).length = 1) ∧
    (∀ (env : Env) (db : DB) (caller reqMethod : String) (form : FilterForm),
      (db.prefs.map (fun p => (p.openid, p.context))).Nodup →
      (∀ p ∈ db.prefs, (p.filters.map Filter.name).Nodup) →
      ∀ p ∈ (handle_filter env db caller reqMethod form).2.prefs,
        (p.filters.map Filter.name).Nodup) := by
  constructor
  · intro env db reqMethod form hvalid hm hu hctx hnd hdup
    have hdb : (db.getOrCreatePref form.openid form.context).2 = db := by
      cases hf : db.findPref form.openid form.context with
      | some q => rw [getOrCreatePref_found db _ _ q hf]
      | none =>
        exfalso
        have hone : (db.getOrCreatePref form.openid form.context).1 =
            ⟨form.openid, form.context, none, true, none, none, []⟩ := by
          unfold DB.getOrCreatePref
          rw [hf]
        rw [hone] at hdup
        simp [Preference.has_filter] at hdup
    constructor
    · unfold handle_filter
      simp [hvalid, hm, hu, hctx, hdup, hdb]
    · exact filter_name_count_one _ _ hnd hdup
  · intro env db caller reqMethod form hpair hnames p hp
    rcases handle_filter_snd_cases env db caller reqMethod form with
      h | h | ⟨h, hnof⟩ | h
    · rw [h] at hp
      exact hnames p hp
    · rw [h] at hp
      exact nodupNames_getOrCreatePref db _ _ hnames p hp
    · rw [h] at hp
      unfold DB.addFilterTo DB.updPref at hp
      obtain ⟨q, hq, rfl⟩ := List.mem_map.mp hp
      by_cases hkey : (q.openid == form.openid &&
          q.context == form.context) = true
      · have hkey' : q.openid = form.openid ∧ q.context = form.context := by
          simpa using hkey
        have hq1 : q = (db.getOrCreatePref form.openid form.context).1 :=
          key_mem_getOrCreatePref db _ _ hpair q hq hkey'
        rw [if_pos hkey]
        show ((q.filters ++
          [({ name := form.filter_name, rules := [] } : Filter)]).map
          Filter.name).Nodup
        rw [List.map_append, List.nodup_append]
        refine ⟨nodupNames_getOrCreatePref db _ _ hnames q hq, by simp, ?_⟩
        simp only [List.map_cons, List.map_nil, List.disjoint_singleton]
        rw [hq1]
        exact not_mem_names_of_no_filter _ _ hnof
      · rw [if_neg hkey]
        exact nodupNames_getOrCreatePref db _ _ hnames q hq
    · rw [h] at hp
      unfold DB.deleteFilterFrom DB.updPref at hp
      obtain ⟨q, hq, rfl⟩ := List.mem_map.mp hp
      by_cases hkey : (q.openid == form.openid &&
          q.context == form.context) = true
      · rw [if_pos hkey]
        exact List.Nodup.sublist
          ((List.eraseP_sublist q.filters).map Filter.name)
          (nodupNames_getOrCreatePref db _ _ hnames q hq)
      · rw [if_neg hkey]
        exact nodupNames_getOrCreatePref db _ _ hnames q hq

/-- Witness for C4: creating "f1" again in alice's email preference fails
with the duplicate error and leaves the database unchanged with exactly
one filter named "f1"; and a successful create of "f2" preserves name
uniqueness. -/
theorem c4_duplicate_filter_name_rejected_witness :
    (handle_filter testEnv testDB "alice" "POST"
        { openid := "alice", context := "email", filter_name := "f1",
          method := none } =
      (.apiError 404 ("f1" ++ " already exists"), testDB) ∧
     ((testDB.getOrCreatePref "alice" "email").1.filters.filter
        (fun f => f.name == "f1")).length = 1) ∧
    (∀ p ∈ (handle_filter testEnv testDB "alice" "POST"
        { openid := "alice", context := "email", filter_name := "f2",
          method := none }).2.prefs,
      (p.filters.map Filter.name).Nodup) :=
  ⟨c4_duplicate_filter_name_rejected.1 testEnv testDB "POST"
    { openid := "alice", context := "email", filter_name := "f1",
      method := none }
    (by decide) (by decide) (by decide) (by decide) (by decide) (by decide),
   c4_duplicate_filter_name_rejected.2 testEnv testDB "alice" "POST"
    { openid := "alice", context := "email", filter_name := "f2",
      method := none }
    (by decide) (by decide)⟩

end FmnWeb
